import Mathlib

/-!
Shallow embedding of the opusclip viral-clip service (python_caption_service)
and proofs settling the frozen claims C1..C10.

Text is modelled as `List Char`, seconds as `ℚ` (exact rationals standing for
the Python floats), Python `int` as `ℤ`/`ℕ`.  Fallible code returns `Option` /
`Except`.  Every definition is translated from the Python source; claim-side
restatements (used for refinement comparisons) are named with a `claim` prefix.
-/

namespace OpusClip

set_option allowUnsafeReducibility true

attribute [semireducible] Rat.mul Rat.add Rat.sub Rat.inv

/-- ASCII lowercase of one character, the effect of Python `str.lower()` on the
ASCII range (all curated keyword lists are ASCII). -/
def lowerCh (c : Char) : Char :=
  if 65 ≤ c.toNat ∧ c.toNat ≤ 90 then Char.ofNat (c.toNat + 32) else c

/-- Python `str.lower()` on a character list. -/
def lowerStr (s : List Char) : List Char := s.map lowerCh

/-- Python whitespace characters recognised by `str.strip()` / `\s` (ASCII part:
space, tab, newline, carriage return, vertical tab, form feed). -/
def isSpaceCh (c : Char) : Bool :=
  c = ' ' ∨ c = Char.ofNat 9 ∨ c = Char.ofNat 10 ∨ c = Char.ofNat 13 ∨
  c = Char.ofNat 11 ∨ c = Char.ofNat 12

/-- Python `str.strip()`: drop leading and trailing whitespace. -/
def stripChars (s : List Char) : List Char :=
  ((s.dropWhile isSpaceCh).reverse.dropWhile isSpaceCh).reverse

/-- Whether the list `s` starts with the literal `p` (Python `str.startswith`). -/
def startsWithChars : List Char → List Char → Bool
  | _, [] => true
  | [], _ :: _ => false
  | c :: s, p :: ps => c = p && startsWithChars s ps

/-- Whether `needle` occurs as a contiguous substring of `hay`
(Python `needle in hay`). -/
def containsSeq (hay needle : List Char) : Bool :=
  match hay with
  | [] => startsWithChars [] needle
  | c :: t => startsWithChars (c :: t) needle || containsSeq t needle

/-- Whether the character `c` occurs in `s` (Python `c in s`). -/
def containsCh (s : List Char) (c : Char) : Bool := s.any (· = c)

/-- Python `str.split(sep)` for a one-character separator; keeps empty pieces,
always returns at least one piece. -/
def splitOnCh (sep : Char) : List Char → List (List Char)
  | [] => [[]]
  | c :: t =>
    let r := splitOnCh sep t
    if c = sep then [] :: r
    else match r with
      | [] => [[c]]
      | p :: ps => (c :: p) :: ps

/-- Python `str.split()` with no argument: split on whitespace runs, dropping
empty pieces.  The accumulator holds the current word reversed. -/
def splitWsGo : List Char → List Char → List (List Char)
  | [], acc => if acc = [] then [] else [acc.reverse]
  | c :: t, acc =>
    if isSpaceCh c then
      if acc = [] then splitWsGo t [] else acc.reverse :: splitWsGo t []
    else splitWsGo t (c :: acc)

/-- Python `str.split()` (whitespace words). -/
def splitWs (s : List Char) : List (List Char) := splitWsGo s []

/-- Collapse every whitespace run to a single space: Python
`re.sub(r'\s+', ' ', s)`. -/
def collapseWs : List Char → List Char
  | [] => []
  | [c] => if isSpaceCh c then [' '] else [c]
  | c :: d :: t =>
    if isSpaceCh c then
      if isSpaceCh d then collapseWs (d :: t) else ' ' :: collapseWs (d :: t)
    else c :: collapseWs (d :: t)

/-- Python `int()` applied to a float value: truncation toward zero. -/
def pyTrunc (q : ℚ) : ℤ := if 0 ≤ q then ⌊q⌋ else ⌈q⌉

/-- Decimal digit character for a value < 10. -/
def digitCh (n : ℕ) : Char := Char.ofNat (48 + n)

/-- Digits of `n` in base 10, most significant first (`go` carries fuel that is
always sufficient because `n / 10 < n` for `n ≥ 10`). -/
def natStrGo : ℕ → ℕ → List Char → List Char
  | 0, _, acc => acc
  | fuel + 1, n, acc =>
    if n < 10 then digitCh n :: acc
    else natStrGo fuel (n / 10) (digitCh (n % 10) :: acc)

/-- Decimal rendering of a natural number, as Python renders an `int`. -/
def natStr (n : ℕ) : List Char := natStrGo (n + 1) n []

/-- Python `f"{n:02d}"` for a nonnegative value. -/
def pad2 (n : ℕ) : List Char := if n < 10 then '0' :: natStr n else natStr n

/-- Python `f"{i:02d}"` for a possibly negative int (the sign counts toward the
field width, so `-1` renders as `-1`). -/
def pad2Int (i : ℤ) : List Char :=
  if i < 0 then '-' :: natStr (-i).toNat else pad2 i.toNat

/-- Python `f"{i:d}"`. -/
def intStr (i : ℤ) : List Char :=
  if i < 0 then '-' :: natStr (-i).toNat else natStr i.toNat

/-- Numeric value of a nonempty all-digit string, `none` otherwise. -/
def parseDigits : List Char → Option ℕ
  | [] => none
  | l =>
    if l.all (fun c => 48 ≤ c.toNat ∧ c.toNat ≤ 57) then
      some (l.foldl (fun acc c => acc * 10 + (c.toNat - 48)) 0)
    else none

/-- Python `int(str)`: optional surrounding whitespace, optional sign, digits. -/
def pyIntOfStr (s : List Char) : Option ℤ :=
  match stripChars s with
  | '-' :: r => (parseDigits r).map (fun n => -(n : ℤ))
  | '+' :: r => (parseDigits r).map (fun n => (n : ℤ))
  | r => (parseDigits r).map (fun n => (n : ℤ))

/-- Round `100 * s` to the nearest integer, ties to even — the centisecond value
printed by Python `f"{s:.2f}"` (half-even rounding; the binary-float noise of
CPython is not modelled, the claims are robust to it). -/
def roundCsHE (s : ℚ) : ℤ :=
  if 100 * s - ⌊100 * s⌋ < 1 / 2 then ⌊100 * s⌋
  else if 1 / 2 < 100 * s - ⌊100 * s⌋ then ⌊100 * s⌋ + 1
  else if Even ⌊100 * s⌋ then ⌊100 * s⌋ else ⌊100 * s⌋ + 1

/-- The rounded centiseconds are within half a centisecond of the exact value. -/
theorem roundCsHE_err (s : ℚ) : |((roundCsHE s : ℚ)) / 100 - s| ≤ 1 / 200 := by
  have hfl : (⌊100 * s⌋ : ℚ) ≤ 100 * s := Int.floor_le _
  have hfl2 : 100 * s < (⌊100 * s⌋ : ℚ) + 1 := Int.lt_floor_add_one _
  unfold roundCsHE
  split_ifs with h1 h2 h3 <;>
    (rw [abs_le]; refine ⟨by push_cast at *; linarith, by push_cast at *; linarith⟩)

/-! ## Data model (hook_detector.py, faster-whisper segments)

`WWord` / `WSeg` model faster-whisper word and segment objects (`word.start`,
`word.end`, `segment.words`); the Python attribute `end` is called `stop` here
because `end` is a Lean keyword. -/

/-- A word-timed token of a Whisper segment. -/
structure WWord where
  word : List Char
  start : ℚ
  stop : ℚ
deriving DecidableEq

/-- A Whisper segment with word-level timestamps. -/
structure WSeg where
  start : ℚ
  stop : ℚ
  text : List Char
  words : List WWord
deriving DecidableEq

/-- hook_detector.TranscriptSegment (confidence omitted: never read by the
embedded operations). -/
structure TranscriptSegment where
  start_time : ℚ
  end_time : ℚ
  text : List Char
  original_segment : Option WSeg
deriving DecidableEq

/-- hook_detector.VideoClip. -/
structure VideoClip where
  start_time : ℚ
  end_time : ℚ
  duration : ℚ
  transcript : List Char
  viral_score : ℚ
  hook_keywords : List (List Char)
  has_question : Bool
  emotion_score : ℚ
  length_bonus : ℚ
  segments : List TranscriptSegment
deriving DecidableEq, Inhabited

/-- HookDetector constructor arguments (target/min/max clip length). -/
structure HookCfg where
  target_length : ℚ
  min_length : ℚ
  max_length : ℚ
deriving DecidableEq

/-- An apostrophe character, spelled via its code point. -/
def apoCh : Char := Char.ofNat 39

/-- HookDetector.HOOK_KEYWORDS, verbatim (apostrophes spelled via `apoCh`). -/
def HOOK_KEYWORDS : List (List Char) :=
  [ "secret".toList, "secrets".toList, "hidden".toList, "revealed".toList,
    "expose".toList, "exposed".toList, "truth about".toList,
    "nobody told you".toList, "nobody tells you".toList,
    "they don".toList ++ apoCh :: "t want you to know".toList,
    "mistake".toList, "mistakes".toList, "wrong".toList, "error".toList,
    "problem".toList, "issue".toList, "fail".toList, "failure".toList,
    "biggest mistake".toList, "common mistake".toList, "avoid this".toList,
    "crazy".toList, "insane".toList, "shocking".toList, "unbelievable".toList,
    "incredible".toList, "amazing".toList,
    "you won".toList ++ apoCh :: "t believe".toList,
    "mind-blowing".toList, "jaw-dropping".toList,
    "this is why".toList, "here".toList ++ apoCh :: "s why".toList,
    "the reason".toList, "because".toList, "how to".toList,
    "watch this".toList, "look at this".toList, "check this out".toList,
    "pay attention".toList,
    "right now".toList, "immediately".toList,
    "before it".toList ++ apoCh :: "s too late".toList,
    "limited time".toList,
    "don".toList ++ apoCh :: "t miss".toList, "last chance".toList,
    "urgent".toList,
    "love".toList, "hate".toList, "angry".toList, "frustrated".toList,
    "excited".toList, "scared".toList, "worried".toList ]

/-- HookDetector.QUESTION_STARTERS, verbatim. -/
def QUESTION_STARTERS : List (List Char) :=
  [ "what".toList, "why".toList, "how".toList, "when".toList, "where".toList,
    "who".toList, "which".toList, "whose".toList,
    "can you".toList, "do you".toList, "have you".toList, "are you".toList,
    "will you".toList, "would you".toList,
    "is it".toList, "are they".toList, "did you know".toList ]

/-- HookDetector._is_sentence_boundary: terminal punctuation (`.`, `!`, `?`,
`...` — the last is subsumed by `.`) or more than 10 whitespace words. -/
def is_sentence_boundary (text : List Char) : Bool :=
  let t := stripChars text
  (match t.reverse with
   | [] => false
   | c :: _ => c = '.' ∨ c = '!' ∨ c = '?') ||
  decide (10 < (splitWs t).length)

/-- Stable insertion (ascending by `start_time`) used to model Python's stable
`sorted(segments, key=lambda x: x.start_time)`. -/
def insertAscStart (c : TranscriptSegment) :
    List TranscriptSegment → List TranscriptSegment
  | [] => [c]
  | d :: ds =>
    if c.start_time ≤ d.start_time then c :: d :: ds
    else d :: insertAscStart c ds

/-- Stable ascending sort by `start_time` (equal keys keep input order, as
Python's timsort does). -/
def sortAscStart : List TranscriptSegment → List TranscriptSegment
  | [] => []
  | c :: cs => insertAscStart c (sortAscStart cs)

/-- Best candidate found so far by the inner window-growing loop of
HookDetector.segment_transcript: the boundary end time, the accumulated
segments, and the accumulated (stripped) text. -/
structure BestAcc where
  stop : ℚ
  segs : List TranscriptSegment
  text : List Char
deriving DecidableEq

/-- The `best_clip_*` update of segment_transcript: first boundary wins, later
boundaries win only when strictly closer to the target length. -/
def bestUpdate (cfg : HookCfg) (clipStart : ℚ) (seg : TranscriptSegment)
    (accSegs : List TranscriptSegment) (accText : List Char) :
    Option BestAcc → BestAcc
  | none => ⟨seg.end_time, accSegs, stripChars accText⟩
  | some b =>
    if |(seg.end_time - clipStart) - cfg.target_length| <
        |(b.stop - clipStart) - cfg.target_length|
    then ⟨seg.end_time, accSegs, stripChars accText⟩
    else b

/-- Inner `while j < len(segments)` loop of segment_transcript.  `rest` is the
suffix starting at `j`, `accSegs`/`accText` are `clip_segments`/`clip_text`,
the option is `best_clip_end` together with its segments and text; the loop
breaks past `max_length` and at the first boundary past `target_length`. -/
def innerScan (cfg : HookCfg) (clipStart : ℚ) :
    List TranscriptSegment → List TranscriptSegment → List Char →
    Option BestAcc → Option BestAcc
  | [], _, _, best => best
  | seg :: rest, accSegs, accText, best =>
    if cfg.max_length < seg.end_time - clipStart then best
    else
      if cfg.min_length ≤ seg.end_time - clipStart ∧ is_sentence_boundary seg.text
      then
        if cfg.target_length ≤ seg.end_time - clipStart then
          some (bestUpdate cfg clipStart seg (accSegs ++ [seg])
            (accText ++ ' ' :: seg.text) best)
        else
          innerScan cfg clipStart rest (accSegs ++ [seg])
            (accText ++ ' ' :: seg.text)
            (some (bestUpdate cfg clipStart seg (accSegs ++ [seg])
              (accText ++ ' ' :: seg.text) best))
      else
        innerScan cfg clipStart rest (accSegs ++ [seg])
          (accText ++ ' ' :: seg.text) best

/-- Outer `while i < len(segments)` loop of segment_transcript.  `fuel` bounds
the number of iterations; since `i` strictly increases every iteration, a fuel
of `segs.length` is never exhausted before `i ≥ segs.length`. -/
def outerScan (cfg : HookCfg) (segs : List TranscriptSegment) :
    ℕ → ℕ → List VideoClip
  | 0, _ => []
  | fuel + 1, i =>
    if h : i < segs.length then
      match innerScan cfg (segs.get ⟨i, h⟩).start_time (segs.drop i) [] [] none with
      | some b =>
        { start_time := (segs.get ⟨i, h⟩).start_time
          end_time := b.stop
          duration := b.stop - (segs.get ⟨i, h⟩).start_time
          transcript := b.text
          viral_score := 0
          hook_keywords := []
          has_question := false
          emotion_score := 0
          length_bonus := 0
          segments := b.segs } ::
        outerScan cfg segs fuel (i + max 1 (b.segs.length / 2))
      | none => outerScan cfg segs fuel (i + 1)
    else []

/-- HookDetector.segment_transcript. -/
def segment_transcript (cfg : HookCfg) (ts : List TranscriptSegment) :
    List VideoClip :=
  let segs := sortAscStart ts
  outerScan cfg segs segs.length 0

/-! ## Scoring (hook_detector.py) -/

/-- HookDetector._detect_hook_keywords: the curated keywords occurring
case-insensitively in the text, in curated-list order. -/
def detect_hook_keywords (text : List Char) : List (List Char) :=
  let tl := lowerStr text
  HOOK_KEYWORDS.filter (fun k => containsSeq tl k)

/-- HookDetector._detect_question_hook: a question starter at the front of the
lowercased stripped text, or a `?` in the first `.`-separated sentence of the
original text. -/
def detect_question_hook (text : List Char) : Bool :=
  let tl := stripChars (lowerStr text)
  QUESTION_STARTERS.any (fun s => startsWithChars tl s) ||
  (match splitOnCh '.' text with
   | [] => false
   | s0 :: _ => containsCh s0 '?')

/-- Output record of the sentiment-analysis pipeline
(`{'label': ..., 'score': ...}`). -/
structure SentimentRes where
  label : List Char
  score : ℚ

/-- The ML sentiment adapter: text to a list of label/score records. -/
def Analyzer := List Char → List SentimentRes

/-- HookDetector._analyze_emotion, with the sentiment model as an optional
capability (`none` exactly when `self.sentiment_analyzer is None`).  The
exception funnel of the source (return 0.0) has no analogue because every
embedded operation is total. -/
def analyze_emotion (analyzer : Option Analyzer) (text : List Char) : ℚ :=
  match analyzer with
  | none => 0
  | some f =>
    let t := stripChars text
    if t = [] then 0
    else
      match f t with
      | [] => 1 / 2
      | r :: _ =>
        let lab := lowerStr r.label
        if lab = "positive".toList ∨ lab = "pos".toList then
          min 1 (r.score * (12 / 10))
        else if lab = "negative".toList ∨ lab = "neg".toList then
          min 1 (r.score * (13 / 10))
        else if lab = "neutral".toList then r.score * (1 / 2)
        else r.score

/-- HookDetector._calculate_length_bonus. -/
def calculate_length_bonus (cfg : HookCfg) (duration : ℚ) : ℚ :=
  if |duration - cfg.target_length| ≤ cfg.target_length * (1 / 10) then 1 else 0

/-- HookDetector._calculate_viral_score together with the field updates it
performs on the clip; returns the updated clip (whose `viral_score` is the
computed score). -/
def score_one (cfg : HookCfg) (analyzer : Option Analyzer) (clip : VideoClip) :
    VideoClip :=
  let hooks := detect_hook_keywords clip.transcript
  let q := detect_question_hook clip.transcript
  let e := analyze_emotion analyzer clip.transcript
  let lb := calculate_length_bonus cfg clip.duration
  { clip with
    hook_keywords := hooks
    has_question := q
    emotion_score := e
    length_bonus := lb
    viral_score := (hooks.length : ℚ) * 2 + (if q then 2 else 0) + e * 2 + lb }

/-- Stable insertion for descending sort by `viral_score`: the new element
(earlier in the input) goes before equal-scored elements, exactly reproducing
Python's stable `sorted(..., reverse=True)`. -/
def insertDescScore (c : VideoClip) : List VideoClip → List VideoClip
  | [] => [c]
  | d :: ds =>
    if d.viral_score ≤ c.viral_score then c :: d :: ds
    else d :: insertDescScore c ds

/-- Stable descending sort by `viral_score`. -/
def sortDescScore : List VideoClip → List VideoClip
  | [] => []
  | c :: cs => insertDescScore c (sortDescScore cs)

/-- HookDetector.score_clips: score every clip, then sort by score descending
(Python `sorted(clips, key=lambda x: x.viral_score, reverse=True)`, a stable
sort). -/
def score_clips (cfg : HookCfg) (analyzer : Option Analyzer)
    (clips : List VideoClip) : List VideoClip :=
  sortDescScore (clips.map (score_one cfg analyzer))

/-! ## Timestamp formats

`format_timestamp` is VideoClip._format_timestamp (hook_detector.py):
`HH:MM:SS` with `int()` truncation of every component.
`parse_timestamp` is CompleteViralClipGenerator._parse_timestamp.
`format_time` is OpusProcessor.format_time (opus_processor.py): the ASS
`H:MM:SS.cc` format, centisecond resolution. -/

/-- VideoClip._format_timestamp: `divmod(total_seconds, 3600)` then
`divmod(remainder, 60)`, each component through `int()` and `{:02d}`. -/
def format_timestamp (seconds : ℚ) : List Char :=
  let hours : ℚ := (⌊seconds / 3600⌋ : ℤ)
  let rem := seconds - 3600 * hours
  let minutes : ℚ := (⌊rem / 60⌋ : ℤ)
  let secs := rem - 60 * minutes
  pad2Int (pyTrunc hours) ++ ':' :: pad2Int (pyTrunc minutes) ++
    ':' :: pad2Int (pyTrunc secs)

/-- CompleteViralClipGenerator._parse_timestamp: split on `:`, `int()` the
first three parts (`none` models the exceptions `int` / indexing raise). -/
def parse_timestamp (ts : List Char) : Option ℚ :=
  match splitOnCh ':' ts with
  | a :: b :: c :: _ => do
    let h ← pyIntOfStr a
    let m ← pyIntOfStr b
    let s ← pyIntOfStr c
    pure ((h : ℚ) * 3600 + (m : ℚ) * 60 + (s : ℚ))
  | _ => none

/-- Python `f"{s:05.2f}"` for the seconds field of an ASS time (two integer
digits zero-padded, dot, two centisecond digits). -/
def fmt052 (s : ℚ) : List Char :=
  let cs := (roundCsHE s).toNat
  pad2 (cs / 100) ++ '.' :: pad2 (cs % 100)

/-- Quotient of `divmod(seconds, 60)` on floats (a whole number, kept in ℚ). -/
def ftM (seconds : ℚ) : ℚ := ((⌊seconds / 60⌋ : ℤ) : ℚ)

/-- Remainder of `divmod(seconds, 60)`. -/
def ftS (seconds : ℚ) : ℚ := seconds - 60 * ftM seconds

/-- Quotient of `divmod(m, 60)` (the hour component). -/
def ftH (seconds : ℚ) : ℚ := ((⌊ftM seconds / 60⌋ : ℤ) : ℚ)

/-- Remainder of `divmod(m, 60)` (the minute component). -/
def ftM2 (seconds : ℚ) : ℚ := ftM seconds - 60 * ftH seconds

/-- OpusProcessor.format_time: `m, s = divmod(seconds, 60)`;
`h, m = divmod(m, 60)`; `f"{int(h):d}:{int(m):02d}:{s:05.2f}"`. -/
def format_time (seconds : ℚ) : List Char :=
  intStr (pyTrunc (ftH seconds)) ++ ':' :: pad2Int (pyTrunc (ftM2 seconds)) ++
    ':' :: fmt052 (ftS seconds)

/-- The rational number denoted by the digits `format_time seconds` prints:
hours·3600 + minutes·60 + (rounded centiseconds)/100. -/
def assTimeValue (seconds : ℚ) : ℚ :=
  (pyTrunc (ftH seconds) : ℚ) * 3600 + (pyTrunc (ftM2 seconds) : ℚ) * 60 +
    (roundCsHE (ftS seconds) : ℚ) / 100

/-- Value parser for ASS `H:MM:SS.cc` times (used to read back concrete
compiled timestamps in counterexamples). -/
def parseAssTime (ts : List Char) : Option ℚ :=
  match splitOnCh ':' ts with
  | [a, b, c] =>
    match splitOnCh '.' c with
    | [s, f] => do
      let h ← pyIntOfStr a
      let m ← pyIntOfStr b
      let sv ← pyIntOfStr s
      let cs ← pyIntOfStr f
      pure ((h : ℚ) * 3600 + (m : ℚ) * 60 + (sv : ℚ) + (cs : ℚ) / 100)
    | _ => none
  | _ => none

/-- Truncation toward zero is the identity on whole numbers. -/
theorem pyTrunc_intCast (k : ℤ) : pyTrunc ((k : ℤ) : ℚ) = k := by
  unfold pyTrunc
  split <;> simp

/-- An ASS timestamp is within 5 ms of the exact second value: the hour/minute
parts print exactly and the seconds field is rounded to centiseconds. -/
theorem assTimeValue_err (q : ℚ) : |assTimeValue q - q| ≤ 1 / 200 := by
  have hH : ((pyTrunc (ftH q) : ℤ) : ℚ) = ftH q := by
    unfold ftH
    rw [pyTrunc_intCast]
  have hcast : ftM2 q = ((⌊q / 60⌋ - 60 * ⌊ftM q / 60⌋ : ℤ) : ℚ) := by
    unfold ftM2 ftH ftM
    push_cast
    ring
  have hM2 : ((pyTrunc (ftM2 q) : ℤ) : ℚ) = ftM2 q := by
    rw [hcast, pyTrunc_intCast]
  have heq : ftH q * 3600 + ftM2 q * 60 + (roundCsHE (ftS q) : ℚ) / 100 - q
      = (roundCsHE (ftS q) : ℚ) / 100 - ftS q := by
    unfold ftM2 ftS
    ring
  unfold assTimeValue
  rw [hH, hM2, heq]
  exact roundCsHE_err (ftS q)

/-! ## Clip dictionaries and top-N selection
(hook_detector.find_viral_clips, complete_viral_clip_generator._find_viral_moments) -/

/-- Python `round(q, k)`: round half-to-even at the k-th decimal. -/
def roundTo (k : ℕ) (q : ℚ) : ℚ :=
  let x := q * (10 : ℚ) ^ k
  let n := ⌊x⌋
  let f := x - n
  (if f < 1 / 2 then (n : ℚ)
   else if 1 / 2 < f then (n : ℚ) + 1
   else if Even n then (n : ℚ) else (n : ℚ) + 1) / (10 : ℚ) ^ k

/-- VideoClip.to_dict output (the `analysis` sub-dictionary is inlined). -/
structure ClipDict where
  start_time : List Char
  end_time : List Char
  duration : ℚ
  score : ℚ
  transcript : List Char
  segments : List TranscriptSegment
  hook_keywords : List (List Char)
  has_question : Bool
  emotion_score : ℚ
  length_bonus : ℚ
deriving DecidableEq

/-- VideoClip.to_dict. -/
def VideoClip.to_dict (c : VideoClip) : ClipDict :=
  { start_time := format_timestamp c.start_time
    end_time := format_timestamp c.end_time
    duration := roundTo 2 c.duration
    score := roundTo 3 c.viral_score
    transcript := stripChars c.transcript
    segments := c.segments
    hook_keywords := c.hook_keywords
    has_question := c.has_question
    emotion_score := roundTo 3 c.emotion_score
    length_bonus := c.length_bonus }

/-- HookDetector.find_viral_clips: segment, score and rank, return the top
`top_n` as dictionaries. -/
def find_viral_clips (cfg : HookCfg) (analyzer : Option Analyzer)
    (ts : List TranscriptSegment) (top_n : ℕ) : List ClipDict :=
  ((score_clips cfg analyzer (segment_transcript cfg ts)).take top_n).map
    VideoClip.to_dict

/-- complete_viral_clip_generator.parse_whisper_segments on Whisper segment
objects: copy timing, strip the text, keep the original segment. -/
def parse_whisper_segments (ws : List WSeg) : List TranscriptSegment :=
  ws.map (fun w =>
    { start_time := w.start
      end_time := w.stop
      text := stripChars w.text
      original_segment := some w })

/-- Stable insertion for descending sort of clip dictionaries by score. -/
def insertDescDict (c : ClipDict) : List ClipDict → List ClipDict
  | [] => [c]
  | d :: ds =>
    if d.score ≤ c.score then c :: d :: ds else d :: insertDescDict c ds

/-- Stable descending sort of clip dictionaries by score
(`sorted(all_viral_clips, key=lambda x: x["score"], reverse=True)`). -/
def sortDescDict : List ClipDict → List ClipDict
  | [] => []
  | c :: cs => insertDescDict c (sortDescDict cs)

/-- Python list slicing `l[:n]` for a possibly negative `n`. -/
def pySliceTo (l : List ClipDict) (n : ℤ) : List ClipDict :=
  if 0 ≤ n then l.take n.toNat else l.take ((l.length : ℤ) + n).toNat

/-- Video duration used by _find_viral_moments: `last.end - first.start` of the
transcript data, 600 s when it is empty. -/
def videoDurationOf (tdata : List WSeg) : ℚ :=
  match tdata with
  | [] => 600
  | w0 :: rest => ((w0 :: rest).getLast (by simp)).stop - w0.start

/-- CompleteViralClipGenerator._find_viral_moments.  Generates `3 × max_clips`
ranked candidates, derives the automatic ceiling from the video duration and
the feasible ceiling `int(duration / avg_clip_length)`, and returns the best
`min(max_clips, smart_max, available)` clips sorted by score.  `min_score` is
carried as in the source, where it only feeds diagnostics ("never filter purely
by score"). -/
def find_viral_moments (cfg : HookCfg) (analyzer : Option Analyzer)
    (tdata : List WSeg) (max_clips : ℕ) (min_score : ℚ)
    (min_length max_length : ℚ) : List ClipDict :=
  let segments := parse_whisper_segments tdata
  let all := find_viral_clips cfg analyzer segments (max_clips * 3)
  let dur := videoDurationOf tdata
  let minutes := dur / 60
  let avg := (min_length + max_length) / 2
  let theo : ℤ := pyTrunc (dur / avg)
  let smart : ℤ :=
    if 20 ≤ minutes then min 10 theo
    else if 10 ≤ minutes then min 8 theo
    else if 5 ≤ minutes then min 5 theo
    else if 2 ≤ minutes then min 3 theo
    else min 2 theo
  let actual : ℤ := min (max_clips : ℤ) (min smart (all.length : ℤ))
  pySliceTo (sortDescDict all) actual

/-- The automatic ceiling table exactly as the claim states it (claim-side
definition, compared with the code above). -/
def claimAutoCeiling (dur : ℚ) : ℤ :=
  if 20 ≤ dur / 60 then 10
  else if 10 ≤ dur / 60 then 8
  else if 5 ≤ dur / 60 then 5
  else if 2 ≤ dur / 60 then 3
  else 2

/-! ## C4: candidate windows stay inside the configured length bounds -/

/-- The duration invariant carried by the `best_clip_*` accumulator. -/
def BestInv (cfg : HookCfg) (clipStart : ℚ) (best : Option BestAcc) : Prop :=
  ∀ b, best = some b →
    cfg.min_length ≤ b.stop - clipStart ∧ b.stop - clipStart ≤ cfg.max_length

theorem bestUpdate_inv (cfg : HookCfg) (clipStart : ℚ) (seg : TranscriptSegment)
    (accSegs : List TranscriptSegment) (accText : List Char)
    (best : Option BestAcc) (hbest : BestInv cfg clipStart best)
    (hmin : cfg.min_length ≤ seg.end_time - clipStart)
    (hmax : seg.end_time - clipStart ≤ cfg.max_length) :
    cfg.min_length ≤
        (bestUpdate cfg clipStart seg accSegs accText best).stop - clipStart ∧
      (bestUpdate cfg clipStart seg accSegs accText best).stop - clipStart ≤
        cfg.max_length := by
  cases best with
  | none => exact ⟨hmin, hmax⟩
  | some b =>
    simp only [bestUpdate]
    split
    · exact ⟨hmin, hmax⟩
    · exact hbest b rfl

theorem innerScan_inv (cfg : HookCfg) (clipStart : ℚ) :
    ∀ (rest accSegs : List TranscriptSegment) (accText : List Char)
      (best : Option BestAcc), BestInv cfg clipStart best →
      BestInv cfg clipStart (innerScan cfg clipStart rest accSegs accText best) := by
  intro rest
  induction rest with
  | nil => intro accSegs accText best hbest; exact hbest
  | cons seg rest ih =>
    intro accSegs accText best hbest
    rw [innerScan]
    by_cases h1 : cfg.max_length < seg.end_time - clipStart
    · rw [if_pos h1]; exact hbest
    · rw [if_neg h1]
      have hmax : seg.end_time - clipStart ≤ cfg.max_length := le_of_not_lt h1
      by_cases h2 : cfg.min_length ≤ seg.end_time - clipStart ∧
          is_sentence_boundary seg.text
      · rw [if_pos h2]
        have hupd : BestInv cfg clipStart
            (some (bestUpdate cfg clipStart seg (accSegs ++ [seg])
              (accText ++ ' ' :: seg.text) best)) := by
          intro b hb
          injection hb with hb
          rw [← hb]
          exact bestUpdate_inv cfg clipStart seg _ _ best hbest h2.1 hmax
        by_cases h3 : cfg.target_length ≤ seg.end_time - clipStart
        · rw [if_pos h3]; exact hupd
        · rw [if_neg h3]; exact ih _ _ _ hupd
      · rw [if_neg h2]; exact ih _ _ _ hbest

theorem outerScan_duration (cfg : HookCfg) (segs : List TranscriptSegment) :
    ∀ (fuel i : ℕ) (clip : VideoClip), clip ∈ outerScan cfg segs fuel i →
      cfg.min_length ≤ clip.duration ∧ clip.duration ≤ cfg.max_length := by
  intro fuel
  induction fuel with
  | zero => intro i clip h; simp [outerScan] at h
  | succ fuel ih =>
    intro i clip h
    rw [outerScan] at h
    by_cases hi : i < segs.length
    · rw [dif_pos hi] at h
      revert h
      cases hscan : innerScan cfg (segs.get ⟨i, hi⟩).start_time
          (segs.drop i) [] [] none with
      | none => intro h; exact ih _ clip h
      | some b =>
        intro h
        rcases List.mem_cons.mp h with hhead | htail
        · have hb := innerScan_inv cfg (segs.get ⟨i, hi⟩).start_time
            (segs.drop i) [] [] none (by intro x hx; cases hx) b hscan
          rw [hhead]
          exact hb
        · exact ih _ clip htail
    · rw [dif_neg hi] at h
      simp only [List.not_mem_nil] at h

/-- C4 — confirmed.  For every list of transcript segments and every
configuration with `min_length ≤ max_length`, every candidate window produced
by `segment_transcript` has duration `d` with `min_length ≤ d ≤ max_length`.
(The bound in fact holds for every configuration: the inner loop only records
a boundary when the window duration is in the configured interval.) -/
theorem c4_candidate_duration_bounds (cfg : HookCfg)
    (ts : List TranscriptSegment) (hcfg : cfg.min_length ≤ cfg.max_length)
    (clip : VideoClip) (hclip : clip ∈ segment_transcript cfg ts) :
    cfg.min_length ≤ clip.duration ∧ clip.duration ≤ cfg.max_length := by
  exact outerScan_duration cfg (sortAscStart ts) _ _ clip hclip

/-- Sample transcript used by concrete witnesses: two segments forming one
sentence-bounded candidate window of 25 s. -/
def exSegA : TranscriptSegment :=
  { start_time := 0
    end_time := 12
    text := "welcome to the show".toList
    original_segment := none }

def exSegB : TranscriptSegment :=
  { start_time := 12
    end_time := 25
    text := "today we reveal everything.".toList
    original_segment := none }

def exCfg : HookCfg := { target_length := 30, min_length := 20, max_length := 40 }

/-- Witness for C4: the sample configuration satisfies `min ≤ max`, the sample
transcript yields a concrete candidate, and the theorem applied to it bounds
its duration. -/
theorem c4_candidate_duration_bounds_witness :
    exCfg.min_length ≤ (segment_transcript exCfg [exSegA, exSegB]).head!.duration ∧
    (segment_transcript exCfg [exSegA, exSegB]).head!.duration ≤ exCfg.max_length :=
  c4_candidate_duration_bounds exCfg [exSegA, exSegB] (by norm_num [exCfg])
    (segment_transcript exCfg [exSegA, exSegB]).head! (by decide)

/-! ## C5: ranking order.  `score_clips` is a stable descending sort by score:
equal scores keep input order (Python's timsort), they are not re-keyed by
start time. -/

theorem mem_insertDescScore (c x : VideoClip) (l : List VideoClip) :
    x ∈ insertDescScore c l ↔ x = c ∨ x ∈ l := by
  induction l with
  | nil => simp [insertDescScore]
  | cons d ds ih =>
    rw [insertDescScore]
    by_cases h : d.viral_score ≤ c.viral_score
    · rw [if_pos h]
      simp [List.mem_cons]
    · rw [if_neg h]
      simp only [List.mem_cons, ih]
      tauto

theorem insertDescScore_sorted (c : VideoClip) (l : List VideoClip)
    (hl : l.Pairwise (fun a b => b.viral_score ≤ a.viral_score)) :
    (insertDescScore c l).Pairwise (fun a b => b.viral_score ≤ a.viral_score) := by
  induction l with
  | nil => simp [insertDescScore]
  | cons d ds ih =>
    rw [insertDescScore]
    rcases List.pairwise_cons.mp hl with ⟨hd, hds⟩
    by_cases h : d.viral_score ≤ c.viral_score
    · rw [if_pos h]
      refine List.Pairwise.cons ?_ hl
      intro x hx
      rcases List.mem_cons.mp hx with rfl | hx
      · exact h
      · exact le_trans (hd x hx) h
    · rw [if_neg h]
      refine List.Pairwise.cons ?_ (ih hds)
      intro x hx
      rcases (mem_insertDescScore c x ds).mp hx with rfl | hx
      · exact le_of_not_le h
      · exact hd x hx

theorem sortDescScore_sorted (l : List VideoClip) :
    (sortDescScore l).Pairwise (fun a b => b.viral_score ≤ a.viral_score) := by
  induction l with
  | nil => simp [sortDescScore]
  | cons c cs ih => exact insertDescScore_sorted c (sortDescScore cs) ih

theorem filter_insertDescScore (c : VideoClip) (l : List VideoClip) (s : ℚ) :
    (insertDescScore c l).filter (fun x => decide (x.viral_score = s)) =
      if c.viral_score = s then
        c :: l.filter (fun x => decide (x.viral_score = s))
      else l.filter (fun x => decide (x.viral_score = s)) := by
  induction l with
  | nil =>
    simp only [insertDescScore, List.filter]
    by_cases h : c.viral_score = s
    · rw [if_pos h]
      simp [h]
    · rw [if_neg h]
      simp [h]
  | cons d ds ih =>
    rw [insertDescScore]
    by_cases h : d.viral_score ≤ c.viral_score
    · rw [if_pos h]
      by_cases hc : c.viral_score = s
      · rw [if_pos hc]
        simp [List.filter, hc]
      · rw [if_neg hc]
        simp [List.filter, hc]
    · rw [if_neg h]
      by_cases hc : c.viral_score = s
      · rw [if_pos hc]
        have hd : ¬ d.viral_score = s := by
          intro hds
          exact h (le_of_eq (hds.trans hc.symm))
        simp only [List.filter_cons, ih, if_pos hc]
        simp [hd]
      · rw [if_neg hc]
        simp only [List.filter_cons, ih, if_neg hc]

theorem filter_sortDescScore (l : List VideoClip) (s : ℚ) :
    (sortDescScore l).filter (fun x => decide (x.viral_score = s)) =
      l.filter (fun x => decide (x.viral_score = s)) := by
  induction l with
  | nil => rfl
  | cons c cs ih =>
    rw [sortDescScore, filter_insertDescScore]
    by_cases hc : c.viral_score = s
    · rw [if_pos hc, ih]
      simp [List.filter_cons, hc]
    · rw [if_neg hc, ih]
      simp [List.filter_cons, hc]

/-- C5 — amended.  The ranked list returned by `score_clips` is sorted by total
score in descending order, and candidates with equal total score appear in
their input order (the sort is stable); they are only "earlier start first"
when the input itself lists them earlier start first, which is not re-imposed
by the ranking. -/
theorem c5_rank_sorted_stable (cfg : HookCfg) (analyzer : Option Analyzer)
    (clips : List VideoClip) :
    (score_clips cfg analyzer clips).Pairwise
        (fun a b => b.viral_score ≤ a.viral_score) ∧
      ∀ s : ℚ,
        (score_clips cfg analyzer clips).filter
            (fun x => decide (x.viral_score = s)) =
          (clips.map (score_one cfg analyzer)).filter
            (fun x => decide (x.viral_score = s)) := by
  constructor
  · exact sortDescScore_sorted _
  · intro s
    exact filter_sortDescScore _ s

/-- Two equal-scoring clips whose input order is "later start first". -/
def exClipLate : VideoClip :=
  { start_time := 50
    end_time := 70
    duration := 20
    transcript := "okay then fine".toList
    viral_score := 0
    hook_keywords := []
    has_question := false
    emotion_score := 0
    length_bonus := 0
    segments := [] }

def exClipEarly : VideoClip :=
  { exClipLate with start_time := 10, end_time := 30 }

/-- Counterexample for C5 as stated: on input `[exClipLate, exClipEarly]` both
clips score 0, yet the ranked list keeps the later start (50 s) before the
earlier one (10 s) — ties are not broken by earlier start time. -/
theorem c5_counterexample :
    ((score_clips exCfg none [exClipLate, exClipEarly]).map
        VideoClip.viral_score = [0, 0]) ∧
      ((score_clips exCfg none [exClipLate, exClipEarly]).map
        VideoClip.start_time = [50, 10]) := by decide

/-! ## C6: the hook-score formula -/

/-- Claim-side count: number of curated hook phrases found case-insensitively
in the text. -/
def claimHookCount (text : List Char) : ℕ :=
  (HOOK_KEYWORDS.filter (fun k => containsSeq (lowerStr text) k)).length

/-- Claim-side question test: the text begins (case-insensitively, ignoring
surrounding whitespace) with an interrogative starter, or the first
`.`-separated sentence contains a question mark. -/
def claimQuestion (text : List Char) : Bool :=
  QUESTION_STARTERS.any (fun s => startsWithChars (stripChars (lowerStr text)) s) ||
  (match splitOnCh '.' text with
   | [] => false
   | s0 :: _ => containsCh s0 '?')

/-- Claim-side length bonus: 1 when `|duration − target| ≤ 0.1 × target`. -/
def claimLengthBonus (target duration : ℚ) : ℚ :=
  if |duration - target| ≤ (1 / 10) * target then 1 else 0

/-- C6 — confirmed.  The viral score is
`2·(hook-phrase count) + 2·(question) + 2·e + length bonus`, where `e` is the
normalized sentiment intensity: 0 when no sentiment model is present, and in
`[0, 1]` whenever the classifier emits probability scores in `[0, 1]`. -/
theorem c6_score_formula (cfg : HookCfg) (analyzer : Option Analyzer)
    (clip : VideoClip)
    (hb : ∀ f, analyzer = some f →
      ∀ r ∈ f (stripChars clip.transcript), 0 ≤ r.score ∧ r.score ≤ 1) :
    (score_one cfg analyzer clip).viral_score =
        2 * (claimHookCount clip.transcript : ℚ) +
          (if claimQuestion clip.transcript then 2 else 0) +
          2 * analyze_emotion analyzer clip.transcript +
          claimLengthBonus cfg.target_length clip.duration ∧
      (analyzer = none → analyze_emotion analyzer clip.transcript = 0) ∧
      0 ≤ analyze_emotion analyzer clip.transcript ∧
      analyze_emotion analyzer clip.transcript ≤ 1 := by
  refine ⟨?_, ?_, ?_, ?_⟩
  · show (detect_hook_keywords clip.transcript).length * 2 +
        (if detect_question_hook clip.transcript then (2 : ℚ) else 0) +
        analyze_emotion analyzer clip.transcript * 2 +
        calculate_length_bonus cfg clip.duration = _
    have h1 : claimHookCount clip.transcript =
        (detect_hook_keywords clip.transcript).length := rfl
    have h2 : claimQuestion clip.transcript =
        detect_question_hook clip.transcript := rfl
    have h3 : claimLengthBonus cfg.target_length clip.duration =
        calculate_length_bonus cfg clip.duration := by
      unfold claimLengthBonus calculate_length_bonus
      rw [mul_comm]
    rw [h1, h2, h3]
    ring
  · intro h
    rw [h]
    rfl
  · unfold analyze_emotion
    cases analyzer with
    | none => exact le_refl 0
    | some f =>
      have hf := hb f rfl
      dsimp only
      by_cases ht : stripChars clip.transcript = []
      · simp [ht]
      · rw [if_neg ht]
        cases hres : f (stripChars clip.transcript) with
        | nil => norm_num
        | cons r rs =>
          have hr := hf r (hres ▸ List.mem_cons_self r rs)
          dsimp only
          split_ifs <;>
            first
              | exact le_min (by norm_num) (by nlinarith [hr.1])
              | nlinarith [hr.1]
  · unfold analyze_emotion
    cases analyzer with
    | none => norm_num
    | some f =>
      have hf := hb f rfl
      dsimp only
      by_cases ht : stripChars clip.transcript = []
      · simp [ht]
      · rw [if_neg ht]
        cases hres : f (stripChars clip.transcript) with
        | nil => norm_num
        | cons r rs =>
          have hr := hf r (hres ▸ List.mem_cons_self r rs)
          dsimp only
          split_ifs <;>
            first
              | exact min_le_left _ _
              | nlinarith [hr.1, hr.2]

/-- A concrete sentiment adapter answering "positive, confidence 1/2". -/
def exAnalyzer : Analyzer := fun _ => [⟨"positive".toList, 1 / 2⟩]

/-- Witness for C6: the formula instantiated at a concrete clip and the
concrete sentiment adapter, whose scores are probabilities. -/
theorem c6_score_formula_witness :
    (score_one exCfg (some exAnalyzer) exClipEarly).viral_score =
        2 * (claimHookCount exClipEarly.transcript : ℚ) +
          (if claimQuestion exClipEarly.transcript then 2 else 0) +
          2 * analyze_emotion (some exAnalyzer) exClipEarly.transcript +
          claimLengthBonus exCfg.target_length exClipEarly.duration ∧
      ((some exAnalyzer : Option Analyzer) = none →
        analyze_emotion (some exAnalyzer) exClipEarly.transcript = 0) ∧
      0 ≤ analyze_emotion (some exAnalyzer) exClipEarly.transcript ∧
      analyze_emotion (some exAnalyzer) exClipEarly.transcript ≤ 1 :=
  c6_score_formula exCfg (some exAnalyzer) exClipEarly (by
    intro f hf r hr
    injection hf with hf
    rw [← hf] at hr
    have : r = ⟨"positive".toList, 1 / 2⟩ := by
      simpa [exAnalyzer] using hr
    rw [this]
    norm_num)

/-! ## C3: the number of clips returned by top-N selection -/

theorem insertDescScore_length (c : VideoClip) (l : List VideoClip) :
    (insertDescScore c l).length = l.length + 1 := by
  induction l with
  | nil => rfl
  | cons d ds ih =>
    rw [insertDescScore]
    split
    · rfl
    · simp [List.length_cons, ih]

theorem sortDescScore_length (l : List VideoClip) :
    (sortDescScore l).length = l.length := by
  induction l with
  | nil => rfl
  | cons c cs ih =>
    rw [sortDescScore, insertDescScore_length, ih, List.length_cons]

theorem insertDescDict_length (c : ClipDict) (l : List ClipDict) :
    (insertDescDict c l).length = l.length + 1 := by
  induction l with
  | nil => rfl
  | cons d ds ih =>
    rw [insertDescDict]
    split
    · rfl
    · simp [List.length_cons, ih]

theorem sortDescDict_length (l : List ClipDict) :
    (sortDescDict l).length = l.length := by
  induction l with
  | nil => rfl
  | cons c cs ih =>
    rw [sortDescDict, insertDescDict_length, ih, List.length_cons]

theorem find_viral_clips_length (cfg : HookCfg) (analyzer : Option Analyzer)
    (ts : List TranscriptSegment) (top_n : ℕ) :
    (find_viral_clips cfg analyzer ts top_n).length =
      min top_n (segment_transcript cfg ts).length := by
  unfold find_viral_clips
  rw [List.length_map, List.length_take, score_clips, sortDescScore_length,
    List.length_map]

theorem claimAutoCeiling_ge_two (dur : ℚ) : 2 ≤ claimAutoCeiling dur := by
  unfold claimAutoCeiling
  split_ifs <;> norm_num

/-- C3 — confirmed.  The number of clips returned by `_find_viral_moments`
equals `min(requested_max, automatic_ceiling, feasible_ceiling, available)`,
with the ceilings exactly as the claim's table and formula state them, under
the data-model assumptions that the transcript spans a nonnegative duration
and the configured average clip length is positive.  The internal cap of
`3 × requested_max` candidates never affects the count. -/
theorem c3_select_top_count (cfg : HookCfg) (analyzer : Option Analyzer)
    (tdata : List WSeg) (max_clips : ℕ) (min_score min_length max_length : ℚ)
    (havg : 0 < min_length + max_length)
    (hdur : 0 ≤ videoDurationOf tdata) :
    ((find_viral_moments cfg analyzer tdata max_clips min_score min_length
        max_length).length : ℤ) =
      min (min (max_clips : ℤ) (claimAutoCeiling (videoDurationOf tdata)))
        (min ⌊videoDurationOf tdata / ((min_length + max_length) / 2)⌋
          ((segment_transcript cfg (parse_whisper_segments tdata)).length : ℤ)) := by
  simp only [find_viral_moments]
  set dur := videoDurationOf tdata with hdurdef
  set avg := (min_length + max_length) / 2 with havgdef
  set L := (segment_transcript cfg (parse_whisper_segments tdata)).length with hL
  have havgpos : 0 < avg := by
    rw [havgdef]
    linarith
  have hqnn : 0 ≤ dur / avg := div_nonneg hdur (le_of_lt havgpos)
  have htheo : pyTrunc (dur / avg) = ⌊dur / avg⌋ := if_pos hqnn
  have htheonn : 0 ≤ ⌊dur / avg⌋ := Int.floor_nonneg.mpr hqnn
  have hall : (find_viral_clips cfg analyzer (parse_whisper_segments tdata)
      (max_clips * 3)).length = min (max_clips * 3) L :=
    find_viral_clips_length cfg analyzer (parse_whisper_segments tdata) _
  have hsmart :
      (if 20 ≤ dur / 60 then min 10 (pyTrunc (dur / avg))
       else if 10 ≤ dur / 60 then min 8 (pyTrunc (dur / avg))
       else if 5 ≤ dur / 60 then min 5 (pyTrunc (dur / avg))
       else if 2 ≤ dur / 60 then min 3 (pyTrunc (dur / avg))
       else min 2 (pyTrunc (dur / avg))) =
        min (claimAutoCeiling dur) ⌊dur / avg⌋ := by
    rw [htheo]
    unfold claimAutoCeiling
    split_ifs <;> rfl
  rw [hsmart, hall]
  have hceil := claimAutoCeiling_ge_two dur
  set C := claimAutoCeiling dur with hC
  have hactnn : 0 ≤ min (max_clips : ℤ) (min (min C ⌊dur / avg⌋)
      ((min (max_clips * 3) L : ℕ) : ℤ)) := by
    refine le_min (Int.natCast_nonneg _) (le_min (le_min (by omega) htheonn)
      (Int.natCast_nonneg _))
  rw [pySliceTo, if_pos hactnn, List.length_take, sortDescDict_length, hall]
  have hToNat : ((min (max_clips : ℤ) (min (min C ⌊dur / avg⌋)
      ((min (max_clips * 3) L : ℕ) : ℤ))).toNat : ℤ) =
      min (max_clips : ℤ) (min (min C ⌊dur / avg⌋)
        ((min (max_clips * 3) L : ℕ) : ℤ)) := Int.toNat_of_nonneg hactnn
  push_cast
  push_cast at hToNat
  omega

/-- Witness for C3: the empty transcript has nonnegative (default 600 s)
duration and positive average length; the returned count is 0, matching the
formula. -/
theorem c3_select_top_count_witness :
    ((find_viral_moments exCfg none [] 5 6 20 40).length : ℤ) =
      min (min (5 : ℤ) (claimAutoCeiling (videoDurationOf [])))
        (min ⌊videoDurationOf [] / (((20 : ℚ) + 40) / 2)⌋
          ((segment_transcript exCfg (parse_whisper_segments [])).length : ℤ)) :=
  c3_select_top_count exCfg none [] 5 6 20 40 (by norm_num) (by norm_num [videoDurationOf])

/-! ## C1: caption-script timestamps
(opus_processor.extract_word_timestamps / chunk_words / generate_karaoke_captions,
complete_viral_clip_generator._process_complete_clip) -/

/-- OpusProcessor.extract_word_timestamps: real word timestamps when the
segment has them, otherwise an even-split estimation over the segment span. -/
def extract_word_timestamps (seg : WSeg) : List WWord :=
  if seg.words = [] then
    (splitWs (stripChars seg.text)).enum.map (fun iw =>
      { word := iw.2
        start := seg.start +
          iw.1 * ((seg.stop - seg.start) / (splitWs (stripChars seg.text)).length)
        stop := seg.start +
          (iw.1 + 1) *
            ((seg.stop - seg.start) / (splitWs (stripChars seg.text)).length) })
  else seg.words

/-- The `all_words` accumulation of chunk_words: word records of every segment
in order. -/
def allWords (segs : List WSeg) : List WWord :=
  (segs.map extract_word_timestamps).flatten

/-- Fixed-size grouping (`range(0, len, chunk_size)` slicing); fuel is the list
length, always sufficient for a positive chunk size. -/
def groupsOfGo (k : ℕ) : ℕ → List WWord → List (List WWord)
  | 0, _ => []
  | _, [] => []
  | fuel + 1, l => l.take k :: groupsOfGo k fuel (l.drop k)

/-- OpusProcessor.chunk_words, as the list of word chunks. -/
def chunk_words (segs : List WSeg) (k : ℕ) : List (List WWord) :=
  groupsOfGo k (allWords segs).length (allWords segs)

/-- Kind tag of an emitted ASS event: a per-word highlight event or an
inter-word gap event. -/
inductive EvKind
  | word
  | gap
deriving DecidableEq

/-- The timing fields of one emitted ASS dialogue event (text and position are
not modelled; the claims concern timestamps only). -/
structure AssEv where
  kind : EvKind
  startT : List Char
  stopT : List Char
deriving DecidableEq

/-- The events the `Karaoke` branch of generate_karaoke_captions emits for one
chunk: per word an event spanning exactly the word, then per adjacent pair
with a positive gap an "all normal" event spanning the gap. -/
def karaokeChunkEvents (ws : List WWord) : List AssEv :=
  ws.map (fun w => ⟨EvKind.word, format_time w.start, format_time w.stop⟩) ++
  (ws.zip ws.tail).filterMap (fun p =>
    if p.1.stop < p.2.start then
      some ⟨EvKind.gap, format_time p.1.stop, format_time p.2.start⟩
    else none)

/-- The event stream of generate_karaoke_captions for the Karaoke template
(words-per-line `wpl`), restricted to its timing content. -/
def generate_karaoke_events (segs : List WSeg) (wpl : ℕ) : List AssEv :=
  ((chunk_words segs wpl).map karaokeChunkEvents).flatten

/-- Shift a word's times by `-p` (the per-word loop of
_process_complete_clip's timestamp adjustment). -/
def shiftWord (p : ℚ) (w : WWord) : WWord :=
  { w with start := w.start - p, stop := w.stop - p }

/-- Shift a whole segment by `-p` (_process_complete_clip's
"adjust timestamps to be relative to clip start"). -/
def shiftSeg (p : ℚ) (s : WSeg) : WSeg :=
  { s with
    start := s.start - p
    stop := s.stop - p
    words := s.words.map (shiftWord p) }

/-- The caption-segment assembly of _process_complete_clip: keep only the
segments carrying an original Whisper segment, shifted by `-start_time`. -/
def adjustSegments (p : ℚ) (segs : List TranscriptSegment) : List WSeg :=
  segs.filterMap (fun s => s.original_segment.map (shiftSeg p))

/-- The original Whisper segments of a clip's stored segments. -/
def clipOriginals (c : VideoClip) : List WSeg :=
  c.segments.filterMap (fun s => s.original_segment)

theorem adjustSegments_eq_map (p : ℚ) (segs : List TranscriptSegment) :
    adjustSegments p segs =
      (segs.filterMap (fun s => s.original_segment)).map (shiftSeg p) := by
  induction segs with
  | nil => rfl
  | cons s ss ih =>
    unfold adjustSegments at *
    cases h : s.original_segment with
    | none => simp [List.filterMap_cons, h, ih]
    | some o => simp [List.filterMap_cons, h, ih]

theorem shiftSeg_words (p : ℚ) (s : WSeg) :
    (shiftSeg p s).words = s.words.map (shiftWord p) := rfl

theorem shiftSeg_text (p : ℚ) (s : WSeg) : (shiftSeg p s).text = s.text := rfl

theorem shiftSeg_start (p : ℚ) (s : WSeg) :
    (shiftSeg p s).start = s.start - p := rfl

theorem shiftSeg_stop (p : ℚ) (s : WSeg) : (shiftSeg p s).stop = s.stop - p := rfl

theorem extract_shift (p : ℚ) (s : WSeg) :
    extract_word_timestamps (shiftSeg p s) =
      (extract_word_timestamps s).map (shiftWord p) := by
  unfold extract_word_timestamps
  rw [shiftSeg_words, shiftSeg_text, shiftSeg_start, shiftSeg_stop]
  by_cases hw : s.words = []
  · rw [if_pos (by simp [hw]), if_pos hw, List.map_map]
    apply List.map_congr_left
    intro iw _
    have hspan : s.stop - p - (s.start - p) = s.stop - s.start := by ring
    simp only [hspan, Function.comp, shiftWord, WWord.mk.injEq]
    refine ⟨trivial, by ring, by ring⟩
  · rw [if_neg (by simp [hw]), if_neg hw]

theorem allWords_shift (p : ℚ) (l : List WSeg) :
    allWords (l.map (shiftSeg p)) = (allWords l).map (shiftWord p) := by
  unfold allWords
  rw [List.map_map]
  induction l with
  | nil => rfl
  | cons s ss ih =>
    simp only [List.map_cons, List.flatten_cons, List.map_append, Function.comp,
      extract_shift, ih]

theorem groupsOfGo_flatten (k : ℕ) (hk : 0 < k) :
    ∀ (fuel : ℕ) (l : List WWord), l.length ≤ fuel →
      (groupsOfGo k fuel l).flatten = l := by
  intro fuel
  induction fuel with
  | zero =>
    intro l hl
    have : l = [] := List.eq_nil_of_length_eq_zero (Nat.le_zero.mp hl)
    rw [this]
    rfl
  | succ fuel ih =>
    intro l hl
    cases l with
    | nil => rfl
    | cons x xs =>
      rw [groupsOfGo, List.flatten_cons, ih ((x :: xs).drop k) ?_]
      · exact List.take_append_drop k (x :: xs)
      · have : ((x :: xs).drop k).length = (x :: xs).length - k := by
          simp
        omega
      · simp

theorem karaokeChunkEvents_words (ws : List WWord) :
    (karaokeChunkEvents ws).filter (fun e => decide (e.kind = EvKind.word)) =
      ws.map (fun w => ⟨EvKind.word, format_time w.start, format_time w.stop⟩) := by
  unfold karaokeChunkEvents
  rw [List.filter_append]
  have h1 : (ws.map (fun w =>
      (⟨EvKind.word, format_time w.start, format_time w.stop⟩ : AssEv))).filter
        (fun e => decide (e.kind = EvKind.word)) =
      ws.map (fun w => ⟨EvKind.word, format_time w.start, format_time w.stop⟩) := by
    apply List.filter_eq_self.mpr
    intro e he
    rcases List.mem_map.mp he with ⟨w, _, rfl⟩
    rfl
  have h2 : ((ws.zip ws.tail).filterMap (fun p =>
      if p.1.stop < p.2.start then
        some (⟨EvKind.gap, format_time p.1.stop, format_time p.2.start⟩ : AssEv)
      else none)).filter (fun e => decide (e.kind = EvKind.word)) = [] := by
    apply List.filter_eq_nil.mpr
    intro e he
    rcases List.mem_filterMap.mp he with ⟨pr, _, hpr⟩
    by_cases hgap : pr.1.stop < pr.2.start
    · rw [if_pos hgap] at hpr
      injection hpr with hpr
      rw [← hpr]
      exact fun h => nomatch h
    · rw [if_neg hgap] at hpr
      cases hpr
  rw [h1, h2, List.append_nil]

theorem generate_karaoke_events_words (segs : List WSeg) (wpl : ℕ)
    (hwpl : 0 < wpl) :
    (generate_karaoke_events segs wpl).filter
        (fun e => decide (e.kind = EvKind.word)) =
      (allWords segs).map
        (fun w => ⟨EvKind.word, format_time w.start, format_time w.stop⟩) := by
  unfold generate_karaoke_events chunk_words
  rw [List.filter_flatten, List.map_map]
  have : (List.map ((fun l => l.filter (fun e => decide (e.kind = EvKind.word))) ∘
      karaokeChunkEvents) (groupsOfGo wpl (allWords segs).length (allWords segs)))
      = List.map (fun ws => ws.map (fun w =>
          (⟨EvKind.word, format_time w.start, format_time w.stop⟩ : AssEv)))
        (groupsOfGo wpl (allWords segs).length (allWords segs)) := by
    apply List.map_congr_left
    intro ws _
    exact karaokeChunkEvents_words ws
  rw [this, ← List.map_flatten, groupsOfGo_flatten wpl hwpl _ _ (le_refl _)]

/-- C1 — amended.  For every word `w` of a selected clip `c`, the word events
of the compiled Karaoke caption script carry the ASS rendering of
`w.start − p` / `w.end − p`, where `p = _parse_timestamp(_format_timestamp(
c.start_time))` is the clip start truncated to whole seconds by the HH:MM:SS
round-trip (the same truncated value at which the clip video itself is cut);
the rendered value is within ±5 ms of `w.start − p` (centisecond resolution),
not within ±1 ms of `w.start − c.start_time`. -/
theorem c1_caption_timestamps (c : VideoClip) (wpl : ℕ) (p : ℚ)
    (hwpl : 0 < wpl)
    (hp : parse_timestamp (format_timestamp c.start_time) = some p) :
    ((generate_karaoke_events (adjustSegments p c.segments) wpl).filter
        (fun e => decide (e.kind = EvKind.word))).map
          (fun e => (e.startT, e.stopT)) =
      (allWords (clipOriginals c)).map
        (fun w => (format_time (w.start - p), format_time (w.stop - p))) ∧
      ∀ w ∈ allWords (clipOriginals c),
        |assTimeValue (w.start - p) - (w.start - p)| ≤ 1 / 200 := by
  constructor
  · rw [generate_karaoke_events_words _ _ hwpl, adjustSegments_eq_map]
    unfold clipOriginals
    rw [allWords_shift, List.map_map, List.map_map]
    apply List.map_congr_left
    intro w _
    rfl
  · intro w _
    exact assTimeValue_err (w.start - p)

/-- Concrete clip with fractional start 10.5 s and one real word at 11 s. -/
def exC1Word : WWord := { word := "hello".toList, start := 11, stop := 23 / 2 }

def exC1Orig : WSeg :=
  { start := 21 / 2
    stop := 23 / 2
    text := "hello".toList
    words := [exC1Word] }

def exC1Seg : TranscriptSegment :=
  { start_time := 21 / 2
    end_time := 23 / 2
    text := "hello".toList
    original_segment := some exC1Orig }

def exC1Clip : VideoClip :=
  { start_time := 21 / 2
    end_time := 23 / 2
    duration := 1
    transcript := "hello".toList
    viral_score := 0
    hook_keywords := []
    has_question := false
    emotion_score := 0
    length_bonus := 0
    segments := [exC1Seg] }

/-- Counterexample for C1 as stated: the clip starts at 10.5 s, its start
round-trips through "00:00:10" to `p = 10`, and the compiled script's word
event starts at "0:00:01.00" (1 s), while `w.start − c.start_time = 0.5 s` —
off by 500 ms, far outside ±1 ms. -/
theorem c1_counterexample :
    parse_timestamp (format_timestamp exC1Clip.start_time) = some 10 ∧
      (generate_karaoke_events (adjustSegments 10 exC1Clip.segments) 6).map
          (fun e => e.startT) = ["0:00:01.00".toList] ∧
      parseAssTime "0:00:01.00".toList = some 1 ∧
      ¬ (|(1 : ℚ) - (exC1Word.start - exC1Clip.start_time)| ≤ 1 / 1000) := by
  decide

/-- Witness for C1 (amended): the theorem applied to the concrete clip with
`p = 10`, both hypotheses discharged by evaluation. -/
theorem c1_caption_timestamps_witness :
    ((generate_karaoke_events (adjustSegments 10 exC1Clip.segments) 6).filter
        (fun e => decide (e.kind = EvKind.word))).map
          (fun e => (e.startT, e.stopT)) =
      (allWords (clipOriginals exC1Clip)).map
        (fun w => (format_time (w.start - 10), format_time (w.stop - 10))) ∧
      ∀ w ∈ allWords (clipOriginals exC1Clip),
        |assTimeValue (w.start - 10) - (w.start - 10)| ≤ 1 / 200 :=
  c1_caption_timestamps exC1Clip 6 10 (by norm_num) (by decide)

/-! ## C8: Hindi transcript cleanup
(complete_viral_clip_generator._clean_hindi_segment) -/

/-- The character filter of `_clean_hindi_segment`: reject Arabic, Hangul and
Jamo, CJK, and Latin letters; accept Devanagari, a short punctuation list,
digits and the space. -/
def is_devanagari_or_allowed (c : Char) : Bool :=
  if 0x0600 ≤ c.toNat ∧ c.toNat ≤ 0x06FF then false
  else if (0xAC00 ≤ c.toNat ∧ c.toNat ≤ 0xD7AF) ∨
      (0x1100 ≤ c.toNat ∧ c.toNat ≤ 0x11FF) then false
  else if 0x4E00 ≤ c.toNat ∧ c.toNat ≤ 0x9FFF then false
  else if (0x41 ≤ c.toNat ∧ c.toNat ≤ 0x5A) ∨
      (0x61 ≤ c.toNat ∧ c.toNat ≤ 0x7A) then false
  else if 0x0900 ≤ c.toNat ∧ c.toNat ≤ 0x097F then true
  else if c ∈ [' ', '.', ',', '!', '?', Char.ofNat 0x964, Char.ofNat 0x965,
      '0', '1', '2', '3', '4', '5', '6', '7', '8', '9'] then true
  else false

/-- CompleteViralClipGenerator._clean_hindi_segment: strip disallowed
characters from the text (falling back to the original text when nothing
remains) and from every word token, dropping tokens whose cleaned text is
empty; timing fields are untouched. -/
def clean_hindi_segment (seg : WSeg) : WSeg :=
  let cleanedText := stripChars (collapseWs (seg.text.filter is_devanagari_or_allowed))
  { seg with
    text := if cleanedText = [] then seg.text else cleanedText
    words := seg.words.filterMap (fun w =>
      if stripChars (w.word.filter is_devanagari_or_allowed) = [] then none
      else some { w with
        word := stripChars (w.word.filter is_devanagari_or_allowed) }) }

/-- Claim-side predicate: the token contains a code point outside Devanagari,
common punctuation, digits and whitespace (i.e. a character the cleanup
rejects). -/
def claimHasDisallowed (w : WWord) : Bool :=
  w.word.any (fun c => ¬ is_devanagari_or_allowed c)

/-- The time fields of a word token. -/
def wTimes (w : WWord) : ℚ × ℚ := (w.start, w.stop)

/-- C8 — amended.  The cleanup strips disallowed characters from each token
and discards a token only when nothing (beyond whitespace) remains; the
surviving tokens are exactly the tokens with a nonempty cleaned residue, in
order, each keeping its original start and end times unchanged, and each
containing only allowed characters. -/
theorem c8_hindi_cleanup (seg : WSeg) :
    ((clean_hindi_segment seg).words.map wTimes =
      (seg.words.filter (fun w =>
        decide (stripChars (w.word.filter is_devanagari_or_allowed) ≠ []))).map
          wTimes) ∧
    ∀ w ∈ (clean_hindi_segment seg).words,
      w.word ≠ [] ∧ w.word.all is_devanagari_or_allowed := by
  constructor
  · show (seg.words.filterMap _).map wTimes = _
    induction seg.words with
    | nil => rfl
    | cons w ws ih =>
      by_cases hw : stripChars (w.word.filter is_devanagari_or_allowed) = []
      · simp only [List.filterMap_cons, List.filter_cons, if_pos hw]
        simpa [hw] using ih
      · simp only [List.filterMap_cons, List.filter_cons, if_neg hw]
        simp only [hw, decide_not, List.map_cons]
        rw [ih]
        simp [wTimes]
  · intro w hw
    simp only [clean_hindi_segment] at hw
    rcases List.mem_filterMap.mp hw with ⟨w0, _, hw0⟩
    by_cases h0 : stripChars (w0.word.filter is_devanagari_or_allowed) = []
    · rw [if_pos h0] at hw0
      cases hw0
    · rw [if_neg h0] at hw0
      injection hw0 with hw0
      rw [← hw0]
      refine ⟨h0, ?_⟩
      show List.all _ _ = true
      rw [List.all_eq_true]
      intro c hc
      have hc' : c ∈ w0.word.filter is_devanagari_or_allowed := by
        have hsub : ∀ x ∈ stripChars (w0.word.filter is_devanagari_or_allowed),
            x ∈ w0.word.filter is_devanagari_or_allowed := by
          intro x hx
          unfold stripChars at hx
          rw [List.mem_reverse] at hx
          have hx2 := (List.dropWhile_sublist _).subset hx
          rw [List.mem_reverse] at hx2
          exact (List.dropWhile_sublist _).subset hx2
        exact hsub c hc
      exact (List.mem_filter.mp hc').2

/-- A token mixing Devanagari and a Latin letter, with timing 1–2 s. -/
def exHindiWord : WWord :=
  { word := [Char.ofNat 0x928, 'X', Char.ofNat 0x92E], start := 1, stop := 2 }

def exHindiSeg : WSeg :=
  { start := 1
    stop := 2
    text := [Char.ofNat 0x928, 'X', Char.ofNat 0x92E]
    words := [exHindiWord] }

/-- Counterexample for C8 as stated: `exHindiWord` contains a Latin code point,
so the claim says it is discarded; the code instead keeps it (stripped to its
two Devanagari characters) with its original 1–2 s timing. -/
theorem c8_counterexample :
    claimHasDisallowed exHindiWord = true ∧
      (clean_hindi_segment exHindiSeg).words =
        [{ word := [Char.ofNat 0x928, Char.ofNat 0x92E], start := 1, stop := 2 }] := by
  decide

/-- Witness for C8 (amended): the theorem applied to the concrete mixed-script
segment; the surviving token keeps its 1–2 s timing and passes the
allowed-characters check. -/
theorem c8_hindi_cleanup_witness :
    ((clean_hindi_segment exHindiSeg).words.map wTimes =
      (exHindiSeg.words.filter (fun w =>
        decide (stripChars (w.word.filter is_devanagari_or_allowed) ≠ []))).map
          wTimes) ∧
    ∀ w ∈ (clean_hindi_segment exHindiSeg).words,
      w.word ≠ [] ∧ w.word.all is_devanagari_or_allowed :=
  c8_hindi_cleanup exHindiSeg

/-! ## C7: face-center detection (face_detection.FaceDetector.detect_face_center)

The cv2/MediaPipe surface is modelled by explicit data: a video is an
openability flag plus the frame sequence, a frame carries its pixel size and
the detections MediaPipe reports on it (relative bounding box and confidence).
`detect_face_center` returns `Except`: the `.error` cases are exactly the
`raise ValueError` paths of the source. -/

/-- One MediaPipe detection: relative bounding box and confidence score. -/
structure FaceDet where
  xmin : ℚ
  ymin : ℚ
  width : ℚ
  height : ℚ
  score : ℚ
deriving DecidableEq

/-- One decoded frame: pixel height/width and the detections found on it. -/
structure Frame where
  h : ℕ
  w : ℕ
  dets : List FaceDet
deriving DecidableEq

/-- A video file as cv2 exposes it. -/
structure VideoF where
  openable : Bool
  frames : List Frame
deriving DecidableEq

/-- A collected face record: pixel center, relative size, confidence,
prominence = size × confidence. -/
structure FaceRec where
  cx : ℤ
  cy : ℤ
  size : ℚ
  conf : ℚ
  prom : ℚ
deriving DecidableEq

/-- The face record built for one detection on one frame. -/
def mkFaceRec (fr : Frame) (d : FaceDet) : FaceRec :=
  { cx := pyTrunc ((d.xmin + d.width / 2) * fr.w)
    cy := pyTrunc ((d.ymin + d.height / 2) * fr.h)
    size := d.width * d.height
    conf := d.score
    prom := d.width * d.height * d.score }

/-- The sampling loop: read at most 300 frames, process every 30th, collect
all detections of the processed frames. -/
def sampleFaces (frames : List Frame) : List FaceRec :=
  ((frames.take 300).enum.filter (fun ifr => ifr.1 % 30 = 0)).flatMap
    (fun ifr => ifr.2.dets.map (mkFaceRec ifr.2))

/-- Python `max(l, key=prominence)` relative to a running best: a later
element replaces the best only when strictly more prominent, so the first
maximal element wins. -/
def maxByProm (best : FaceRec) : List FaceRec → FaceRec
  | [] => best
  | f :: fs => maxByProm (if best.prom < f.prom then f else best) fs

/-- FaceDetector.detect_face_center. -/
def detect_face_center (v : VideoF) (prefer_left_side : Bool)
    (segment_time : Option ℚ) : Except (List Char) (ℤ × ℤ) :=
  if ¬ v.openable then Except.error "Could not open video".toList
  else
    let face_centers := sampleFaces v.frames
    if face_centers = [] then
      match v.frames with
      | [] => Except.error "Could not read video frames".toList
      | fr :: _ => Except.ok ((fr.w : ℤ) / 2, (fr.h : ℤ) / 2)
    else
      let frame_width : ℚ := match v.frames with
        | [] => 1080
        | fr :: _ => fr.w
      let left := face_centers.filter (fun f => (f.cx : ℚ) < frame_width * (1 / 2))
      let right := face_centers.filter (fun f => ¬ ((f.cx : ℚ) < frame_width * (1 / 2)))
      let target :=
        match segment_time with
        | some t =>
          if ⌊t / 10⌋ % 2 = 0 ∧ left ≠ [] then left
          else if ⌊t / 10⌋ % 2 = 1 ∧ right ≠ [] then right
          else if prefer_left_side ∧ left ≠ [] then left
          else if ¬ prefer_left_side ∧ right ≠ [] then right
          else face_centers
        | none =>
          if prefer_left_side ∧ left ≠ [] then left
          else if ¬ prefer_left_side ∧ right ≠ [] then right
          else face_centers
      match target with
      | [] => Except.error "max() arg is an empty sequence".toList
      | f :: fs =>
        let best := maxByProm f fs
        let similar := target.filter (fun g => best.prom * (1 / 2) < g.prom)
        if similar.length = 0 then
          Except.error "cannot convert float NaN to integer".toList
        else
          Except.ok
            (pyTrunc ((similar.map (fun g => (g.cx : ℚ))).sum / similar.length),
             pyTrunc ((similar.map (fun g => (g.cy : ℚ))).sum / similar.length))

/-- C7 — amended.  `detect_face_center` raises `ValueError` (does not return a
fallback) when the video cannot be opened; when the video opens, no face is
detected in the sampled frames, and a first frame is readable, it returns the
frame center. -/
theorem c7_face_center_fallback (v : VideoF) (prefer_left_side : Bool)
    (segment_time : Option ℚ) :
    (v.openable = false →
      detect_face_center v prefer_left_side segment_time =
        Except.error "Could not open video".toList) ∧
    (v.openable = true → sampleFaces v.frames = [] →
      ∀ fr rest, v.frames = fr :: rest →
        detect_face_center v prefer_left_side segment_time =
          Except.ok ((fr.w : ℤ) / 2, (fr.h : ℤ) / 2)) := by
  constructor
  · intro hopen
    unfold detect_face_center
    rw [if_pos (by rw [hopen]; exact Bool.false_ne_true)]
  · intro hopen hempty fr rest hframes
    unfold detect_face_center
    rw [if_neg (by rw [hopen]; exact fun h => h rfl)]
    dsimp only
    rw [if_pos hempty, hframes]

/-- An unopenable video. -/
def exBadVideo : VideoF := { openable := false, frames := [] }

/-- A readable video whose sampled frames contain no detection. -/
def exNoFaceVideo : VideoF :=
  { openable := true, frames := [{ h := 720, w := 1280, dets := [] }] }

/-- Counterexample for C7 as stated: on an unopenable video the operation
raises `ValueError` instead of returning the frame center. -/
theorem c7_counterexample :
    detect_face_center exBadVideo true none =
      Except.error "Could not open video".toList := rfl

/-- Witness for C7 (amended): both conjuncts applied at concrete videos — the
unopenable video errors, the no-face video returns the frame center. -/
theorem c7_face_center_fallback_witness :
    detect_face_center exBadVideo true none =
        Except.error "Could not open video".toList ∧
      detect_face_center exNoFaceVideo true none = Except.ok (640, 360) :=
  ⟨(c7_face_center_fallback exBadVideo true none).1 rfl,
   (c7_face_center_fallback exNoFaceVideo true none).2 rfl (by decide)
     { h := 720, w := 1280, dets := [] } [] rfl⟩

/-! ## C10: URL validation before download
(processing.validate_youtube_url / download_youtube_video, app.create_job_endpoint) -/

/-- A character of the video-id class `[a-zA-Z0-9_-]`. -/
def idChar (c : Char) : Bool :=
  (0x41 ≤ c.toNat ∧ c.toNat ≤ 0x5A) ∨ (0x61 ≤ c.toNat ∧ c.toNat ≤ 0x7A) ∨
  (0x30 ≤ c.toNat ∧ c.toNat ≤ 0x39) ∨ c = '_' ∨ c = '-'

/-- Consume the literal `lit` at the head of `s`. -/
def dropLit (lit s : List Char) : Option (List Char) :=
  match lit, s with
  | [], s => some s
  | _ :: _, [] => none
  | l :: ls, c :: cs => if c = l then dropLit ls cs else none

/-- Regex alternation for the optional scheme `(?:https?://)?` at one position
(greedy first, then the empty alternative — backtracking as `re` does). -/
def afterScheme (s : List Char) : List (List Char) :=
  (match dropLit "https://".toList s with
   | some r => [r]
   | none => []) ++
  (match dropLit "http://".toList s with
   | some r => [r]
   | none => []) ++ [s]

/-- The optional `(?:www\.)?` group at one position. -/
def afterWww (s : List Char) : List (List Char) :=
  (match dropLit "www.".toList s with
   | some r => [r]
   | none => []) ++ [s]

/-- Match of one YouTube pattern at one position: optional scheme, optional
`www.`, the literal core (e.g. `youtube.com/watch?v=`), then the captured
group of exactly 11 id characters. -/
def patIdAt (core : List Char) (s : List Char) : Option (List Char) :=
  ((afterScheme s).flatMap (fun s1 =>
    (afterWww s1).filterMap (fun s2 =>
      match dropLit core s2 with
      | some r =>
        if (r.take 11).length = 11 ∧ (r.take 11).all idChar
        then some (r.take 11) else none
      | none => none))).head?

/-- `re.search` of one pattern: the leftmost position with a match wins. -/
def searchPat (core : List Char) : List Char → Option (List Char)
  | [] => patIdAt core []
  | c :: t =>
    match patIdAt core (c :: t) with
    | some vid => some vid
    | none => searchPat core t

/-- The captured video id of validate_youtube_url's pattern loop: the four
patterns are tried in order. -/
def ytVideoId (url : List Char) : Option (List Char) :=
  match searchPat "youtube.com/watch?v=".toList url with
  | some v => some v
  | none =>
    match searchPat "youtu.be/".toList url with
    | some v => some v
    | none =>
      match searchPat "youtube.com/embed/".toList url with
      | some v => some v
      | none => searchPat "youtube.com/v/".toList url

/-- processing.validate_youtube_url: `(is_valid, message)`. -/
def validate_youtube_url (url : List Char) : Bool × List Char :=
  if url = [] then (false, "URL must be a non-empty string".toList)
  else
    match ytVideoId url with
    | none => (false, "Invalid YouTube URL format.".toList)
    | some vid =>
      if vid.length ≠ 11 then (false, "Invalid video ID length.".toList)
      else if startsWithChars vid "--".toList then
        (false, "Malformed video ID.".toList)
      else if ¬ vid.all idChar then
        (false, "Invalid video ID characters.".toList)
      else (true, "Valid YouTube URL".toList)

/-- Outcome of processing.download_youtube_video before any subprocess is
spawned: either the ValueError raised on validation failure (carrying the
validation message) or the yt-dlp download attempt. -/
inductive DlOutcome
  | rejected (reason : List Char)
  | attempted
deriving DecidableEq

/-- processing.download_youtube_video, up to its first effect: validate, raise
on failure, otherwise go on to spawn yt-dlp. -/
def download_youtube_video (url : List Char) : DlOutcome :=
  if (validate_youtube_url url).1 then DlOutcome.attempted
  else DlOutcome.rejected (validate_youtube_url url).2

/-! ## C2 / C10: job submission form, queue payload, worker parameter binding
(app.create_job_endpoint, queue_manager.enqueue_processing_job,
processing.run_opus_transcription) -/

/-- The multipart form fields of `POST /api/transcribe_opus`; `none` models an
absent key. -/
structure FormData where
  job_id : Option (List Char)
  youtube_url : Option (List Char)
  video_url : Option (List Char)
  opus_template : Option (List Char)
  clip_duration : Option (List Char)
  original_filename : Option (List Char)
  layout : Option (List Char)
  timeframe_start : Option (List Char)
  timeframe_end : Option (List Char)
  min_clip_length : Option (List Char)
  max_clip_length : Option (List Char)
  target_clip_length : Option (List Char)
deriving DecidableEq

/-- Python truthiness of `request.form.get(...)`: false for an absent key and
for the empty string. -/
def truthy : Option (List Char) → Bool
  | none => false
  | some s => s ≠ []

/-- The keyword arguments app.create_job_endpoint passes to
enqueue_processing_job (all twelve, after parsing). -/
structure EnqueueKwargs where
  job_id : Option (List Char)
  youtube_url : Option (List Char)
  opus_template : List Char
  clip_duration : ℤ
  exports_dir : List Char
  original_filename : Option (List Char)
  layout : List Char
  timeframe_start : Option ℤ
  timeframe_end : Option ℤ
  min_clip_length : ℤ
  max_clip_length : ℤ
  target_clip_length : ℤ
deriving DecidableEq

/-- `int(s) if s else default` (a `none` result is the ValueError → 400 path). -/
def parseIntOr (o : Option (List Char)) (dflt : ℤ) : Option ℤ :=
  match o with
  | none => some dflt
  | some s => if s = [] then some dflt else pyIntOfStr s

/-- `int(s) if s else None`. -/
def parseIntOpt (o : Option (List Char)) : Option (Option ℤ) :=
  match o with
  | none => some none
  | some s => if s = [] then some none else (pyIntOfStr s).map some

/-- app.create_job_endpoint: required-field checks, numeric parsing with the
endpoint's defaults, then the enqueue call.  `json.loads` of the template is
abstracted to the raw template string (template decoding is irrelevant to the
claims settled here). -/
def create_job_endpoint (exports_dir : List Char) (form : FormData) :
    Except (List Char) EnqueueKwargs :=
  if ¬ truthy form.job_id then Except.error "job_id is required".toList
  else if ¬ truthy form.youtube_url ∧ ¬ truthy form.video_url then
    Except.error "youtube_url or video_url is required".toList
  else if ¬ truthy form.opus_template then
    Except.error "opus_template is required".toList
  else
    match parseIntOr form.clip_duration 30, parseIntOpt form.timeframe_start,
        parseIntOpt form.timeframe_end, parseIntOr form.min_clip_length 30,
        parseIntOr form.max_clip_length 90,
        parseIntOr form.target_clip_length 60 with
    | some cd, some ts, some te, some mn, some mx, some tg =>
      Except.ok
        { job_id := form.job_id
          youtube_url :=
            if truthy form.youtube_url then form.youtube_url else form.video_url
          opus_template := (form.opus_template).getD []
          clip_duration := cd
          exports_dir := exports_dir
          original_filename := form.original_filename
          layout := (form.layout).getD "fit".toList
          timeframe_start := ts
          timeframe_end := te
          min_clip_length := mn
          max_clip_length := mx
          target_clip_length := tg }
    | _, _, _, _, _, _ => Except.error "Invalid template or duration".toList

/-- The six positional arguments queue_manager.enqueue_processing_job places
in the enqueued job's `args` list. -/
structure PosArgs where
  youtube_url : Option (List Char)
  opus_template : List Char
  clip_duration : ℤ
  exports_dir : List Char
  original_filename : Option (List Char)
  layout : List Char
deriving DecidableEq

/-- queue_manager.enqueue_processing_job: pop `job_id`, forward exactly six
positional arguments read from the kwargs dictionary — every other keyword
argument is silently dropped. -/
def enqueue_processing_job (k : EnqueueKwargs) : Option (List Char) × PosArgs :=
  (k.job_id,
   { youtube_url := k.youtube_url
     opus_template := k.opus_template
     clip_duration := k.clip_duration
     exports_dir := k.exports_dir
     original_filename := k.original_filename
     layout := k.layout })

/-- The parameters run_opus_transcription actually receives. -/
structure RunParams where
  youtube_url : Option (List Char)
  opus_template : List Char
  clip_duration : ℤ
  exports_dir : List Char
  original_filename : Option (List Char)
  layout_mode : List Char
  timeframe_start : Option ℤ
  timeframe_end : Option ℤ
  min_clip_length : ℤ
  max_clip_length : ℤ
  target_clip_length : ℤ
deriving DecidableEq

/-- Python's binding of `run_opus_transcription(*args)` for a six-element
`args` list: the remaining five parameters take the signature's defaults
(`None, None, 30, 90, 60`). -/
def bindRunOpus (a : PosArgs) : RunParams :=
  { youtube_url := a.youtube_url
    opus_template := a.opus_template
    clip_duration := a.clip_duration
    exports_dir := a.exports_dir
    original_filename := a.original_filename
    layout_mode := a.layout
    timeframe_start := none
    timeframe_end := none
    min_clip_length := 30
    max_clip_length := 90
    target_clip_length := 60 }

/-- A submission supplying a timeframe of 10–50 s and clip lengths 20/40/25. -/
def exForm : FormData :=
  { job_id := some "j1".toList
    youtube_url := some "https://www.youtube.com/watch?v=abcdefghijk".toList
    video_url := none
    opus_template := some "Karaoke".toList
    clip_duration := some "30".toList
    original_filename := none
    layout := some "fit".toList
    timeframe_start := some "10".toList
    timeframe_end := some "50".toList
    min_clip_length := some "20".toList
    max_clip_length := some "40".toList
    target_clip_length := some "25".toList }

/-- C2 — code bug.  The endpoint parses and passes the caller's timeframe and
min/max/target clip lengths to the queue layer as keyword arguments, but
`enqueue_processing_job` forwards only six positional arguments, so the worker
binds its defaults (`None, None, 30, 90, 60`) instead of the caller's values
(`10, 50, 20, 40, 25`). -/
theorem c2_enqueue_drops_parameters :
    ((create_job_endpoint "exports".toList exForm).toOption.map (fun k =>
      (k.timeframe_start, k.timeframe_end, k.min_clip_length,
        k.max_clip_length, k.target_clip_length))) =
      some (some 10, some 50, 20, 40, 25) ∧
    ((create_job_endpoint "exports".toList exForm).toOption.map (fun k =>
      (fun p => (p.timeframe_start, p.timeframe_end, p.min_clip_length,
        p.max_clip_length, p.target_clip_length))
        (bindRunOpus (enqueue_processing_job k).2))) =
      some (none, none, 30, 90, 60) := by decide

/-- The form a client submits with an arbitrary `video_url`. -/
def c10Form (url : List Char) : FormData :=
  { exForm with youtube_url := none, video_url := some url }

/-- C10 — confirmed.  Any nonempty source URL in which none of the four
YouTube patterns matches (`ytVideoId`, the pattern search of
validate_youtube_url) is accepted by the submission endpoint without URL-shape
validation, yet rejected by the worker pipeline with the validation
ValueError before any download attempt. -/
theorem c10_invalid_url_rejected (url : List Char)
    (hmatch : ytVideoId url = none) (hne : url ≠ []) :
    (create_job_endpoint "exports".toList (c10Form url)).toOption.isSome = true ∧
      download_youtube_video url =
        DlOutcome.rejected "Invalid YouTube URL format.".toList := by
  constructor
  · unfold create_job_endpoint
    rw [if_neg (by simp [c10Form, exForm, truthy])]
    rw [if_neg (by simp [c10Form, exForm, truthy, hne])]
    rw [if_neg (by simp [c10Form, exForm, truthy])]
    rfl
  · unfold download_youtube_video validate_youtube_url
    rw [if_neg hne, hmatch]
    rfl

/-- Witness for C10: a syntactically valid non-YouTube URL is accepted by the
endpoint and rejected before download. -/
theorem c10_invalid_url_rejected_witness :
    (create_job_endpoint "exports".toList
        (c10Form "https://example.com/video.mp4".toList)).toOption.isSome = true ∧
      download_youtube_video "https://example.com/video.mp4".toList =
        DlOutcome.rejected "Invalid YouTube URL format.".toList :=
  c10_invalid_url_rejected "https://example.com/video.mp4".toList
    (by decide) (by decide)

/-! ## C9: temporary-file lifecycle
(processing.run_opus_transcription's finally-cleanup,
complete_viral_clip_generator._process_complete_clip)

File effects are modelled as a trace of create/remove/remove-tree operations
on (directory, name) pairs; `leftover` is the set of files still on disk when
the trace ends.  External commands are modelled as creating their output
exactly when they succeed; the environment records which stage succeeds. -/

/-- One file-system effect. -/
inductive FsOp
  | create (dir name : List Char)
  | remove (dir name : List Char)
  | removeTree (dir : List Char)
deriving DecidableEq

/-- Apply one effect to the set of live files. -/
def applyFsOp (live : List (List Char × List Char)) : FsOp →
    List (List Char × List Char)
  | FsOp.create d n => if (d, n) ∈ live then live else live ++ [(d, n)]
  | FsOp.remove d n => live.filter (fun p => ¬ p = (d, n))
  | FsOp.removeTree d => live.filter (fun p => ¬ p.1 = d)

/-- The files remaining after a trace runs from an empty disk. -/
def leftover (ops : List FsOp) : List (List Char × List Char) :=
  ops.foldl applyFsOp []

/-- Stage outcomes of one run_opus_transcription execution.  `setupTailOk`
is the code between the copy of the ASS into the exports directory and the
entry of the burn try-block — chiefly the broker write of
`update_job_progress(75, ...)`: this stretch still lies inside the earlier
setup try-block, whose `except` only re-raises, so a failure here never
reaches the burn `finally`. -/
structure RunEnv where
  downloadOk : Bool
  extractOk : Bool
  transcribeOk : Bool
  layoutIsAuto : Bool
  layoutOk : Bool
  assGenOk : Bool
  setupTailOk : Bool
  burnOk : Bool
  fallbackOk : Bool
deriving DecidableEq

/-- The directory names of the model: the job's mkdtemp directory, the exports
directory, and the server's working directory. -/
def tmpD : List Char := "temp".toList

def expD : List Char := "exports".toList

def cwdD : List Char := "cwd".toList

/-- The burn phase of run_opus_transcription: write the ASS, copy it into the
exports directory, run the rest of the setup try-block (the progress write —
a failure there re-raises without entering the burn try, leaking the copy),
then burn (with the copy-without-subtitles fallback on burn failure); the
burn `finally` removes the exports-directory ASS copy on every exit path of
the burn try-block — but only of the burn try-block. -/
def runOpusBurnPhase (e : RunEnv) : List FsOp :=
  if e.assGenOk = false then []
  else
    FsOp.create tmpD "opus_subtitles.ass".toList ::
    FsOp.create expD "temp_subs.ass".toList ::
    (if e.setupTailOk = false then []
     else
       (if e.burnOk then [FsOp.create expD "final_export.mp4".toList]
        else if e.fallbackOk then [FsOp.create expD "final_export.mp4".toList]
        else []) ++
       [FsOp.remove expD "temp_subs.ass".toList])

/-- The file trace of one run_opus_transcription execution: each stage creates
its outputs when it succeeds, an exception at any stage skips the rest, and
the function-level `finally` removes the whole temp directory on every path. -/
def runOpusTrace (e : RunEnv) : List FsOp :=
  (if e.downloadOk = false then []
   else
     FsOp.create tmpD "downloaded_video.mp4".toList ::
     (if e.extractOk = false then []
      else
        FsOp.create tmpD "extracted_audio.wav".toList ::
        (if e.transcribeOk = false then []
         else
           if e.layoutIsAuto then runOpusBurnPhase e
           else if e.layoutOk = false then []
           else FsOp.create tmpD "layout_processed.mp4".toList ::
             runOpusBurnPhase e))) ++
  [FsOp.removeTree tmpD]

/-- Stage outcomes of one _process_complete_clip execution. -/
structure ClipEnv where
  extractOk : Bool
  layoutOk : Bool
  captionOk : Bool
  burnOk : Bool
  outputExists : Bool
deriving DecidableEq

/-- complete_viral_clip_generator._process_complete_clip as (success flag,
file trace): segment extraction, layout intermediate, per-clip ASS plus the
debug copy in the working directory, the simple ASS copy, the burn, and — only
on the fully successful path — the deletion of the four intermediates.  No
path removes the debug copy, and the per-clip temp directory is never removed
by this pipeline (the generator has no rmtree). -/
def process_complete_clip (e : ClipEnv) : Bool × List FsOp :=
  if e.extractOk = false then (false, [])
  else
    let t1 := [FsOp.create tmpD "segment.mp4".toList]
    if e.layoutOk = false then (false, t1)
    else
      let t2 := t1 ++ [FsOp.create tmpD "layout_clip.mp4".toList]
      if e.captionOk = false then (false, t2)
      else
        let t3 := t2 ++
          [FsOp.create tmpD "captions_clip.ass".toList,
           FsOp.create cwdD "debug_swipeup_captions.ass".toList,
           FsOp.create tmpD "captions.ass".toList]
        if e.burnOk = false then (false, t3)
        else if e.outputExists = false then
          (false, t3 ++ [FsOp.create expD "clip.mp4".toList])
        else
          (true, t3 ++
            [FsOp.create expD "clip.mp4".toList,
             FsOp.remove tmpD "segment.mp4".toList,
             FsOp.remove tmpD "layout_clip.mp4".toList,
             FsOp.remove tmpD "captions_clip.ass".toList,
             FsOp.remove tmpD "captions.ass".toList])

/-- C9 — amended.  In the worker entry point run_opus_transcription the
mkdtemp directory is removed in a `finally` on every completion and failure
path, and on every path that enters the burn try-block the exports-directory
ASS copy is removed too, so only the final export product remains; but an
exception between the copy into the exports directory and the burn try-block
(the broker write of update_job_progress — it still sits in the setup
try-block, whose `except` only re-raises) leaks `temp_subs_{timestamp}.ass`
in the exports directory.  In the complete viral clip pipeline the four
per-clip intermediates are deleted only when burning succeeds and the output
exists, the debug ASS copy written to the working directory survives every
path that reaches caption generation — including the successful one — and
per-clip intermediates remain on per-clip failure. -/
theorem c9_temp_file_lifecycle :
    (∀ b1 b2 b3 b4 b5 b6 b7 b8 b9 : Bool,
      (leftover (runOpusTrace ⟨b1, b2, b3, b4, b5, b6, b7, b8, b9⟩)).all
        (fun p => p.1 = expD) = true) ∧
    (∀ b1 b2 b3 b4 b5 b6 b8 b9 : Bool,
      (leftover (runOpusTrace ⟨b1, b2, b3, b4, b5, b6, true, b8, b9⟩)).all
        (fun p => p = (expD, "final_export.mp4".toList)) = true) ∧
    ((expD, "temp_subs.ass".toList) ∈
      leftover (runOpusTrace
        ⟨true, true, true, true, true, true, false, true, true⟩)) ∧
    ((leftover (process_complete_clip ⟨true, true, true, true, true⟩).2).all
      (fun p => ¬ p.1 = tmpD) = true) ∧
    ((process_complete_clip ⟨true, true, true, true, true⟩).1 = true ∧
      (cwdD, "debug_swipeup_captions.ass".toList) ∈
        leftover (process_complete_clip ⟨true, true, true, true, true⟩).2) ∧
    ((tmpD, "segment.mp4".toList) ∈
        leftover (process_complete_clip ⟨true, true, true, false, false⟩).2 ∧
      (tmpD, "layout_clip.mp4".toList) ∈
        leftover (process_complete_clip ⟨true, true, true, false, false⟩).2) := by
  decide

/-- Counterexample for C9 as stated: a fully successful clip render reaches the
terminal state with the debug ASS scratch file still on disk. -/
theorem c9_counterexample :
    (process_complete_clip ⟨true, true, true, true, true⟩).1 = true ∧
      (cwdD, "debug_swipeup_captions.ass".toList) ∈
        leftover (process_complete_clip ⟨true, true, true, true, true⟩).2 := by
  decide

end OpusClip
